import Mathlib

/-!
Verification of the leaderboard data pipeline: a shallow embedding of
`scripts/fetch_data.py` (table normalization, summary aggregation,
time-window filtering, dataset assembly) and `scripts/generate_html.py`
(template rendering), together with theorems settling the specified
properties.

Numeric cell values are embedded as exact rationals (`Rat`); absent cells
as `none`.  Python's stable `list.sort` is embedded as insertion sort
(`List.insertionSort`), which is stable.  Fallible operations (indexing
that can raise, date parsing that can raise) return `Option`.
-/

namespace Leaderboard

/-- The canonical model list (`MODELS` in `fetch_data.py`). -/
def MODELS : List String :=
  ["AutoARIMA", "AutoCES", "AutoETS", "Chronos",
   "DynamicOptimizedTheta", "HistoricAverage", "Moirai",
   "Prophet", "SeasonalNaive", "TiRex", "TimesFM", "ZeroModel"]

/-- A normalized metric record (`parse_rows` output shape as consumed by
`compute_summary` and `main`): three string grouping keys and a mapping
from model name to optional metric value. -/
structure MetricRecord where
  subdataset : String
  frequency : String
  cutoff : String
  values : List (String × Option Rat)
deriving DecidableEq

/-- `r["values"].get(m)` — dictionary lookup returning `None` both when the
key is missing and when the stored value is `None`. -/
def getVal (r : MetricRecord) (m : String) : Option Rat :=
  (r.values.lookup m).join

/-- The present (non-`None`) values of model `m` across `records`, in record
order (`model_vals[m]` in `compute_summary`). -/
def presentVals (records : List MetricRecord) (m : String) : List Rat :=
  records.filterMap (fun r => getVal r m)

/-- `avg_metric[m] = sum(vals) / len(vals) if vals else None`. -/
def avgMetric (records : List MetricRecord) (m : String) : Option Rat :=
  let vals := presentVals records m
  if vals.length = 0 then none else some (vals.sum / vals.length)

/-- The `(model, value)` pairs of a record restricted to the models of
`models` having a present value, in `models` order
(`vals = [(m, v) for m, v in vals if v is not None]`). -/
def presentPairs (models : List String) (r : MetricRecord) : List (String × Rat) :=
  models.filterMap (fun m => (getVal r m).map (fun v => (m, v)))

/-- The sort key relation used by `vals.sort(key=lambda x: x[1])`. -/
def valLE (a b : String × Rat) : Prop := a.2 ≤ b.2

instance : DecidableRel valLE := fun a b => inferInstanceAs (Decidable (a.2 ≤ b.2))

instance : IsTotal (String × Rat) valLE := ⟨fun a b => le_total a.2 b.2⟩

instance : IsTrans (String × Rat) valLE := ⟨fun _ _ _ h h' => le_trans h h'⟩

/-- The present pairs of a record sorted ascending by value with Python's
stable sort. -/
def rankedPresent (models : List String) (r : MetricRecord) : List (String × Rat) :=
  List.insertionSort valLE (presentPairs models r)

/-- `enumerate`: pair each element of a ranked list with its 1-based rank,
starting from rank `i + 1`. -/
def withRanks (i : Nat) : List (String × Rat) → List (String × Nat)
  | [] => []
  | p :: ps => (p.1, i + 1) :: withRanks (i + 1) ps

/-- The per-record rank assignment: `(m, rank_idx + 1)` for each present
pair of the record, in sorted order (`for rank_idx, (m, _) in enumerate(vals)`). -/
def recordRanks (models : List String) (r : MetricRecord) : List (String × Nat) :=
  withRanks 0 (rankedPresent models r)

/-- The models of `models` with a present value in record `r`. -/
def presentModels (models : List String) (r : MetricRecord) : List String :=
  models.filter (fun m => (getVal r m).isSome)

/-- All per-record ranks received by model `m` across `records`
(the contributions accumulated into `rank_accum[m]` / `rank_count[m]`). -/
def allRanks (models : List String) (records : List MetricRecord) (m : String) : List Nat :=
  (records.map (fun r => ((recordRanks models r).filter (fun p => p.1 = m)).map Prod.snd)).flatten

/-- `avg_rank[m] = rank_accum[m] / rank_count[m] if rank_count[m] > 0 else None`. -/
def avgRank (models : List String) (records : List MetricRecord) (m : String) : Option Rat :=
  let ranks := allRanks models records m
  if ranks.length = 0 then none else some ((ranks.sum : Rat) / ranks.length)

/-- The combined ordering score of `compute_summary` lines 178–186:
accumulate whichever of the two rank means are present, divide by their
count, and fall back to the sentinel `999` when neither is present. -/
def combinedScore (mr cr : Option Rat) : Rat :=
  let combined : Rat := (match mr with | some v => v | none => 0)
    + (match cr with | some v => v | none => 0)
  let count : Nat := (match mr with | some _ => 1 | none => 0)
    + (match cr with | some _ => 1 | none => 0)
  if 0 < count then combined / count else 999

/-- Round half to even at integer precision (Python's `round`). -/
def roundHalfEven (q : Rat) : Int :=
  let f : Int := ⌊q⌋
  if q - f < 1/2 then f
  else if (1 : Rat)/2 < q - f then f + 1
  else if f % 2 = 0 then f else f + 1

/-- `round(x, 3)`. -/
def round3 (q : Rat) : Rat := (roundHalfEven (q * 1000) : Rat) / 1000

/-- A summary entry before the sort: display fields plus the internal
`_combined` ordering score. -/
structure SummaryEntryI where
  model : String
  avg_mase : Option Rat
  avg_crps : Option Rat
  rank_mase : Option Rat
  rank_crps : Option Rat
  combined : Rat
deriving DecidableEq

/-- A summary entry as output (`_combined` deleted). -/
structure SummaryEntry where
  model : String
  avg_mase : Option Rat
  avg_crps : Option Rat
  rank_mase : Option Rat
  rank_crps : Option Rat
deriving DecidableEq

/-- The unsorted summary rows built per model (`compute_summary` lines
176–195): rounded display fields plus the combined score. -/
def summaryPre (models : List String) (maseR crpsR : List MetricRecord) :
    List SummaryEntryI :=
  models.map (fun m =>
    { model := m
      avg_mase := (avgMetric maseR m).map round3
      avg_crps := (avgMetric crpsR m).map round3
      rank_mase := (avgRank models maseR m).map round3
      rank_crps := (avgRank models crpsR m).map round3
      combined := combinedScore (avgRank models maseR m) (avgRank models crpsR m) })

/-- The sort key relation of `summary.sort(key=lambda x: x["_combined"])`. -/
def combLE (a b : SummaryEntryI) : Prop := a.combined ≤ b.combined

instance : DecidableRel combLE := fun a b => inferInstanceAs (Decidable (a.combined ≤ b.combined))

instance : IsTotal SummaryEntryI combLE := ⟨fun a b => le_total a.combined b.combined⟩

instance : IsTrans SummaryEntryI combLE := ⟨fun _ _ _ h h' => le_trans h h'⟩

/-- The summary rows sorted ascending by combined score (stable). -/
def summarySorted (models : List String) (maseR crpsR : List MetricRecord) :
    List SummaryEntryI :=
  List.insertionSort combLE (summaryPre models maseR crpsR)

/-- The three medal glyphs (gold, silver, bronze). -/
def medals : List String :=
  [String.singleton (Char.ofNat 0x1F947),
   String.singleton (Char.ofNat 0x1F948),
   String.singleton (Char.ofNat 0x1F949)]

/-- `for i, s in enumerate(summary): if i < 3: prepend medal; del _combined`. -/
def medalize (i : Nat) : List SummaryEntryI → List SummaryEntry
  | [] => []
  | s :: ss =>
    { model := if i < 3 then medals.getD i "" ++ " " ++ s.model else s.model
      avg_mase := s.avg_mase
      avg_crps := s.avg_crps
      rank_mase := s.rank_mase
      rank_crps := s.rank_crps } :: medalize (i + 1) ss

/-- `compute_summary(mase_records, crps_records, models)`. -/
def compute_summary (models : List String) (maseR crpsR : List MetricRecord) :
    List SummaryEntry :=
  medalize 0 (summarySorted models maseR crpsR)

/-! ### Calendar dates and the time-window filter (`main`, lines 227–246) -/

/-- Gregorian leap-year test. -/
def isLeap (y : Nat) : Bool := (y % 4 == 0 && y % 100 != 0) || y % 400 == 0

/-- Length of month `m` (1–12) in year `y`; `0` for an invalid month. -/
def monthLen (y m : Nat) : Nat :=
  match m with
  | 1 => 31 | 2 => if isLeap y then 29 else 28 | 3 => 31 | 4 => 30
  | 5 => 31 | 6 => 30 | 7 => 31 | 8 => 31 | 9 => 30 | 10 => 31
  | 11 => 30 | 12 => 31 | _ => 0

/-- Days in year `y` strictly before month `m`. -/
def daysBeforeMonth (y m : Nat) : Nat :=
  ((List.range (m - 1)).map (fun i => monthLen y (i + 1))).sum

/-- The proleptic-Gregorian day number of `y-m-d` (as in `date.toordinal`);
`datetime` comparison and `timedelta(days=90)` subtraction reduce to
arithmetic on this ordinal since every constructed datetime has hour 0. -/
def toOrdinal (y m d : Nat) : Int :=
  ((365 * (y - 1) + (y - 1) / 4 - (y - 1) / 100 + (y - 1) / 400
    + daysBeforeMonth y m + d : Nat) : Int)

/-- Lexicographic comparison of character lists by code point — the order
Python uses on `str` (and the one underlying `sorted`/`max` on cutoff
strings). -/
def lexLeb : List Char → List Char → Bool
  | [], _ => true
  | _ :: _, [] => false
  | c :: cs, d :: ds =>
    if c.toNat < d.toNat then true
    else if d.toNat < c.toNat then false
    else lexLeb cs ds

/-- String `≤` as Python compares strings. -/
def strLE (a b : String) : Prop := lexLeb a.data b.data = true

instance : DecidableRel strLE := fun _ _ => inferInstanceAs (Decidable (_ = true))

theorem lexLeb_refl : ∀ l : List Char, lexLeb l l = true
  | [] => rfl
  | c :: cs => by simp [lexLeb, lexLeb_refl cs]

theorem lexLeb_total : ∀ a b : List Char, lexLeb a b = true ∨ lexLeb b a = true
  | [], _ => Or.inl rfl
  | _ :: _, [] => Or.inr rfl
  | c :: cs, d :: ds => by
    rcases Nat.lt_trichotomy c.toNat d.toNat with h | h | h
    · left
      simp [lexLeb, h]
    · have := lexLeb_total cs ds
      rcases this with h' | h'
      · left
        simp [lexLeb, h, h']
      · right
        simp [lexLeb, h.symm, h']
    · right
      simp [lexLeb, h]

theorem lexLeb_trans : ∀ a b c : List Char,
    lexLeb a b = true → lexLeb b c = true → lexLeb a c = true
  | [], _, _ => by simp [lexLeb]
  | _ :: _, [], _ => by simp [lexLeb]
  | _ :: _, _ :: _, [] => by simp [lexLeb]
  | a :: as, b :: bs, c :: cs => by
    intro hab hbc
    simp only [lexLeb] at hab hbc ⊢
    rcases Nat.lt_trichotomy a.toNat b.toNat with h1 | h1 | h1
    · rcases Nat.lt_trichotomy b.toNat c.toNat with h2 | h2 | h2
      · simp [Nat.lt_trans h1 h2]
      · simp [show a.toNat < c.toNat by omega]
      · rw [if_neg (by omega), if_pos h2] at hbc
        exact absurd hbc (by simp)
    · rcases Nat.lt_trichotomy b.toNat c.toNat with h2 | h2 | h2
      · simp [show a.toNat < c.toNat by omega]
      · rw [if_neg (by omega), if_neg (by omega)] at hab
        rw [if_neg (by omega), if_neg (by omega)] at hbc
        rw [if_neg (by omega), if_neg (by omega)]
        exact lexLeb_trans as bs cs hab hbc
      · rw [if_neg (by omega), if_pos h2] at hbc
        exact absurd hbc (by simp)
    · rw [if_neg (by omega), if_pos h1] at hab
      exact absurd hab (by simp)

instance : IsTotal String strLE := ⟨fun a b => lexLeb_total a.data b.data⟩

instance : IsTrans String strLE := ⟨fun a b c => lexLeb_trans a.data b.data c.data⟩

/-- `cutoff_str.split("-")` on the underlying character list. -/
def splitDash : List Char → List (List Char)
  | [] => [[]]
  | c :: rest =>
    if c = '-' then [] :: splitDash rest
    else
      match splitDash rest with
      | [] => [[c]]
      | p :: ps => (c :: p) :: ps

/-- The numeric value of a decimal digit character. -/
def digitVal (c : Char) : Option Nat :=
  if 48 ≤ c.toNat ∧ c.toNat ≤ 57 then some (c.toNat - 48) else none

/-- `int(...)` on a digit string: `none` on an empty or non-digit field
(the `ValueError` path). -/
def toNatDigits (l : List Char) : Option Nat :=
  match l with
  | [] => none
  | _ :: _ =>
    l.foldl (fun acc c =>
      match acc, digitVal c with
      | some a, some d => some (a * 10 + d)
      | _, _ => none) (some 0)

/-- `datetime(int(parts[0]), int(parts[1]), int(parts[2]))` applied to
`cutoff_str.split("-")`: parse the first three dash-separated fields as
numbers and validate them as a calendar date (the hour field is ignored);
`none` embeds the exception paths (missing or non-numeric fields,
out-of-range month/day/year). -/
def parseDate (s : String) : Option (Nat × Nat × Nat) :=
  let parts := splitDash s.data
  match (parts.get? 0).bind toNatDigits, (parts.get? 1).bind toNatDigits,
      (parts.get? 2).bind toNatDigits with
  | some y, some m, some d =>
    if 1 ≤ y ∧ y ≤ 9999 ∧ 1 ≤ m ∧ m ≤ 12 ∧ 1 ≤ d ∧ d ≤ monthLen y m
    then some (y, m, d) else none
  | _, _, _ => none

/-- The day ordinal of a parsed date triple. -/
def ordOf (t : Nat × Nat × Nat) : Int := toOrdinal t.1 t.2.1 t.2.2

/-- `sorted(set(r["cutoff"] for r in mase_records + crps_records))[-1]`:
the last element of the sorted deduplicated cutoff list, `none` when there
are no records. -/
def latestCutoff (rs : List MetricRecord) : Option String :=
  (List.insertionSort strLE (rs.map (fun r => r.cutoff)).dedup).getLast?

/-- The retention test `is_within_3_months` at threshold ordinal `t`, made
total: `false` also stands for the unreachable-parse branch (`keep` is only
related to the pipeline through `filterWithin`, which fails instead). -/
def keep (t : Int) (r : MetricRecord) : Bool :=
  match parseDate r.cutoff with
  | some d => decide (t ≤ ordOf d)
  | none => false

/-- `[r for r in records if is_within_3_months(r["cutoff"])]`, where a
record whose cutoff fails to parse raises (embedded as `none`). -/
def filterWithin (t : Int) : List MetricRecord → Option (List MetricRecord)
  | [] => some []
  | r :: rs =>
    match parseDate r.cutoff with
    | none => none
    | some d =>
      (filterWithin t rs).map (fun rest => if t ≤ ordOf d then r :: rest else rest)

/-- The time-window filter of `main` lines 227–246: find the latest cutoff
over the union of both record lists; if there are no records, do nothing;
otherwise parse it, subtract 90 days, and filter both lists independently
by the same threshold. -/
def filterWindow (mase crps : List MetricRecord) :
    Option (List MetricRecord × List MetricRecord) :=
  match latestCutoff (mase ++ crps) with
  | none => some (mase, crps)
  | some latest =>
    match parseDate latest with
    | none => none
    | some ld =>
      match filterWithin (ordOf ld - 90) mase, filterWithin (ordOf ld - 90) crps with
      | some m, some c => some (m, c)
      | _, _ => none

/-! ### Dataset assembly (`main`, lines 248–266) -/

/-- The final output document. -/
structure Dataset where
  models : List String
  cutoffs : List String
  subdatasets : List String
  frequencies : List String
  mase : List MetricRecord
  crps : List MetricRecord
  summary : List SummaryEntry

/-- `sorted(set(l))`. -/
def sortedUnique (l : List String) : List String :=
  List.insertionSort strLE l.dedup

/-- Assemble the final `data` object from the (already filtered) record
lists (`main` lines 248–266). -/
def buildDataset (models : List String) (maseR crpsR : List MetricRecord) : Dataset :=
  let allRecords := maseR ++ crpsR
  { models := models
    cutoffs := sortedUnique (allRecords.map (fun r => r.cutoff))
    subdatasets := sortedUnique (allRecords.map (fun r => r.subdataset))
    frequencies := sortedUnique (allRecords.map (fun r => r.frequency))
    mase := maseR
    crps := crpsR
    summary := compute_summary models maseR crpsR }

/-- The pure tail of `main`: time-window filtering followed by dataset
assembly over the filtered lists. -/
def mainPipeline (models : List String) (maseR crpsR : List MetricRecord) :
    Option Dataset :=
  (filterWindow maseR crpsR).map (fun p => buildDataset models p.1 p.2)

/-! ### Table normalization (`parse_rows`, lines 113–135) -/

/-- A raw record produced by `parse_rows`, generic in the cell type (Python
rows are heterogeneous dynamic lists whose cells are copied verbatim). -/
structure RawRecord (α : Type) where
  subdataset : α
  frequency : α
  cutoff : α
  values : List (String × α)
deriving DecidableEq

/-- Sequence a fallible map over a list, failing at the first failure
(a Python loop that may raise). -/
def mapOpt (f : α → Option β) : List α → Option (List β)
  | [] => some []
  | a :: l =>
    match f a with
    | none => none
    | some b => (mapOpt f l).map (fun bs => b :: bs)

/-- Pair each element with its index starting at `i` (Python `enumerate`). -/
def withIdx (i : Nat) : List α → List (Nat × α)
  | [] => []
  | a :: l => (i, a) :: withIdx (i + 1) l

/-- The per-row body of `parse_rows`: read cells 0–2 as the grouping keys
and cell `3 + i` as the value of the `i`-th model column, keyed by that
column's header name; every cell access is fallible (`IndexError`
embedded as `none`). -/
def parseRow (model_cols : List String) (row : List α) : Option (RawRecord α) := do
  let subdataset ← row.get? 0
  let frequency ← row.get? 1
  let cutoff ← row.get? 2
  let values ← mapOpt (fun p => (row.get? (3 + p.1)).map (fun v => (p.2, v)))
    (withIdx 0 model_cols)
  pure { subdataset := subdataset, frequency := frequency, cutoff := cutoff,
         values := values }

/-- `parse_rows(headers, raw_rows)`: `model_cols = headers[3:]`; convert
each row into a record; return the record list and the model-column
list. -/
def parse_rows (headers : List String) (raw_rows : List (List α)) :
    Option (List (RawRecord α) × List String) :=
  let model_cols := headers.drop 3
  (mapOpt (parseRow model_cols) raw_rows).map (fun recs => (recs, model_cols))

/-! ### Template rendering (`generate_html.py`, lines 39–48) -/

/-- The literal placeholder token, as a character list. -/
def PLACEHOLDER : List Char := "/* __DATA_PLACEHOLDER__ */".data

/-- `f"const DATA = {data_json};"`. -/
def dataLine (dataJson : List Char) : List Char :=
  "const DATA = ".data ++ dataJson ++ ";".data

/-- Substring containment (`pat in s` on Python strings). -/
def hasSubstr (pat : List Char) : List Char → Bool
  | [] => pat.isEmpty
  | c :: rest => pat.isPrefixOf (c :: rest) || hasSubstr pat rest

/-- `template.replace(PLACEHOLDER, repl)`: replace every non-overlapping
occurrence of the placeholder, scanning left to right. -/
def replacePH (repl : List Char) : List Char → List Char
  | [] => []
  | c :: rest =>
    if PLACEHOLDER.isPrefixOf (c :: rest) then
      repl ++ replacePH repl ((c :: rest).drop PLACEHOLDER.length)
    else
      c :: replacePH repl rest
termination_by s => s.length
decreasing_by
  · simp only [List.length_drop]
    have : PLACEHOLDER.length = 26 := rfl
    simp [this]
    omega
  · simp

/-- The rendering step of `generate_html.main`: fail when the placeholder
token is absent, otherwise replace it with the data assignment line. -/
def render (dataJson template : List Char) : Except String (List Char) :=
  if hasSubstr PLACEHOLDER template then
    Except.ok (replacePH (dataLine dataJson) template)
  else
    Except.error "PlaceholderMissing"

/-! ### Helper lemmas -/

theorem withRanks_map_fst (i : Nat) (l : List (String × Rat)) :
    (withRanks i l).map Prod.fst = l.map Prod.fst := by
  induction l generalizing i with
  | nil => rfl
  | cons p ps ih => simp [withRanks, ih]

theorem withRanks_map_snd (i : Nat) (l : List (String × Rat)) :
    (withRanks i l).map Prod.snd = List.range' (i + 1) l.length := by
  induction l generalizing i with
  | nil => rfl
  | cons p ps ih => simp [withRanks, ih, List.range'_succ]

theorem presentPairs_map_fst (models : List String) (r : MetricRecord) :
    (presentPairs models r).map Prod.fst = presentModels models r := by
  induction models with
  | nil => rfl
  | cons m ms ih =>
    cases h : getVal r m with
    | none => simpa [presentPairs, presentModels, List.filterMap_cons, List.filter_cons, h]
        using ih
    | some v => simpa [presentPairs, presentModels, List.filterMap_cons, List.filter_cons, h]
        using ih

theorem rankedPresent_perm (models : List String) (r : MetricRecord) :
    (rankedPresent models r).Perm (presentPairs models r) :=
  List.perm_insertionSort valLE (presentPairs models r)

theorem presentModels_length (models : List String) (r : MetricRecord) :
    (presentModels models r).length = (presentPairs models r).length := by
  rw [← presentPairs_map_fst, List.length_map]

/-- C1: per record, the rank assignment ranks exactly the models with a
present value (a permutation of them), assigns the ranks `1..k` in sorted
order, sorts ascending by value with a stable sort (ties keep input
order), and gives no rank to a model absent from the record. -/
theorem record_rank_assignment (models : List String) (r : MetricRecord) :
    ((recordRanks models r).map Prod.fst).Perm (presentModels models r)
    ∧ (recordRanks models r).map Prod.snd = List.range' 1 (presentModels models r).length
    ∧ List.Pairwise valLE (rankedPresent models r)
    ∧ (∀ v : Rat, (rankedPresent models r).filter (fun p => p.2 = v)
        = (presentPairs models r).filter (fun p => p.2 = v))
    ∧ (∀ m : String, getVal r m = none → m ∉ (recordRanks models r).map Prod.fst) := by
  have hfst : (recordRanks models r).map Prod.fst = (rankedPresent models r).map Prod.fst :=
    withRanks_map_fst 0 (rankedPresent models r)
  have hpermfst : ((recordRanks models r).map Prod.fst).Perm (presentModels models r) := by
    rw [hfst, ← presentPairs_map_fst]
    exact (rankedPresent_perm models r).map Prod.fst
  refine ⟨hpermfst, ?_, ?_, ?_, ?_⟩
  · rw [recordRanks, withRanks_map_snd, presentModels_length,
      (rankedPresent_perm models r).length_eq]
  · exact List.sorted_insertionSort valLE (presentPairs models r)
  · intro v
    set p : String × Rat → Bool := fun q => decide (q.2 = v) with hp
    have hpw : ((presentPairs models r).filter p).Pairwise valLE := by
      apply List.pairwise_of_forall_mem_list
      intro x hx y hy
      have hxv := (List.mem_filter.mp hx).2
      have hyv := (List.mem_filter.mp hy).2
      simp only [hp, decide_eq_true_eq] at hxv hyv
      unfold valLE
      rw [hxv, hyv]
    have hsub : List.Sublist ((presentPairs models r).filter p) (rankedPresent models r) :=
      List.sublist_insertionSort hpw (List.filter_sublist _)
    have hsub2 : List.Sublist ((presentPairs models r).filter p)
        ((rankedPresent models r).filter p) := by
      have := hsub.filter p
      rwa [List.filter_filter, List.filter_congr (fun a _ => by rw [Bool.and_self])] at this
    have hperm : ((rankedPresent models r).filter p).Perm ((presentPairs models r).filter p) :=
      (rankedPresent_perm models r).filter p
    exact (hsub2.eq_of_length hperm.length_eq.symm).symm
  · intro m hm hmem
    have : m ∈ presentModels models r := hpermfst.mem_iff.mp hmem
    have := (List.mem_filter.mp this).2
    rw [hm] at this
    simp at this

/-- Witness for C1 at a concrete record: `["A","B","C"]` with `B` absent. -/
theorem record_rank_assignment_witness :
    (((recordRanks ["A", "B", "C"]
        { subdataset := "s", frequency := "H", cutoff := "2026-01-01-00",
          values := [("A", some 2), ("C", some 1)] }).map Prod.fst).Perm
      (presentModels ["A", "B", "C"]
        { subdataset := "s", frequency := "H", cutoff := "2026-01-01-00",
          values := [("A", some 2), ("C", some 1)] }))
    ∧ "B" ∉ (recordRanks ["A", "B", "C"]
        { subdataset := "s", frequency := "H", cutoff := "2026-01-01-00",
          values := [("A", some 2), ("C", some 1)] }).map Prod.fst :=
  ⟨(record_rank_assignment ["A", "B", "C"] _).1,
   (record_rank_assignment ["A", "B", "C"] _).2.2.2.2 "B" (by decide)⟩

/-- C2: `avg_metric[m]` is `None` exactly when `m` has no present value in
any record, and otherwise is the arithmetic mean of exactly the present
values of `m` (absent entries contribute to neither numerator nor
denominator). -/
theorem avg_metric_spec (records : List MetricRecord) (m : String) :
    (avgMetric records m = none ↔ ∀ r ∈ records, getVal r m = none)
    ∧ ∀ a : Rat, avgMetric records m = some a →
        presentVals records m ≠ []
        ∧ a * (presentVals records m).length = (presentVals records m).sum := by
  have key : presentVals records m = [] ↔ ∀ r ∈ records, getVal r m = none := by
    unfold presentVals
    exact List.filterMap_eq_nil_iff
  constructor
  · by_cases h0 : (presentVals records m).length = 0
    · simp only [avgMetric, h0, if_pos]
      simpa using key.mp (List.length_eq_zero.mp h0)
    · simp only [avgMetric, h0, if_neg, not_false_iff]
      constructor
      · intro h
        simp at h
      · intro hall
        exact absurd (by rw [key.mpr hall]; rfl) h0
  · intro a ha
    by_cases h0 : (presentVals records m).length = 0
    · simp only [avgMetric, h0, if_pos] at ha
      simp at ha
    · simp only [avgMetric, h0, if_neg, not_false_iff, Option.some.injEq] at ha
      refine ⟨fun hnil => h0 (by rw [hnil]; rfl), ?_⟩
      have hlen : ((presentVals records m).length : Rat) ≠ 0 := by
        exact_mod_cast h0
      rw [← ha]
      exact div_mul_cancel₀ _ hlen

/-- Witness for C2 at a one-record list where model `A` has value `3`. -/
theorem avg_metric_spec_witness :
    presentVals
      [{ subdataset := "s", frequency := "H", cutoff := "2026-01-01-00",
         values := [("A", some 3)] }] "A" ≠ []
    ∧ (3 : Rat) * (presentVals
        [{ subdataset := "s", frequency := "H", cutoff := "2026-01-01-00",
           values := [("A", some 3)] }] "A").length
      = (presentVals
        [{ subdataset := "s", frequency := "H", cutoff := "2026-01-01-00",
           values := [("A", some 3)] }] "A").sum :=
  (avg_metric_spec
    [{ subdataset := "s", frequency := "H", cutoff := "2026-01-01-00",
       values := [("A", some 3)] }] "A").2 3
    (by norm_num [avgMetric, presentVals, getVal, List.lookup, List.filterMap])

theorem withRanks_snd_le (i : Nat) (l : List (String × Rat)) :
    ∀ p ∈ withRanks i l, p.2 ≤ i + l.length := by
  induction l generalizing i with
  | nil => simp [withRanks]
  | cons q qs ih =>
    intro p hp
    simp only [withRanks, List.mem_cons] at hp
    rcases hp with h | h
    · subst h
      simp only [List.length_cons]
      omega
    · have := ih (i + 1) p h
      simp only [List.length_cons]
      omega

theorem allRanks_le (models : List String) (records : List MetricRecord) (m : String) :
    ∀ x ∈ allRanks models records m, x ≤ models.length := by
  intro x hx
  unfold allRanks at hx
  rw [List.mem_flatten] at hx
  obtain ⟨l, hl, hxl⟩ := hx
  rw [List.mem_map] at hl
  obtain ⟨r, _, rfl⟩ := hl
  rw [List.mem_map] at hxl
  obtain ⟨p, hp, rfl⟩ := hxl
  have hp' := (List.mem_filter.mp hp).1
  have hb := withRanks_snd_le 0 (rankedPresent models r) p hp'
  have hlen : (rankedPresent models r).length ≤ models.length := by
    rw [(rankedPresent_perm models r).length_eq]
    exact List.length_filterMap_le _ _
  omega

theorem avgRank_lt_999 (models : List String) (records : List MetricRecord)
    (m : String) (v : Rat) (hlen : models.length ≤ 998)
    (h : avgRank models records m = some v) : v < 999 := by
  unfold avgRank at h
  by_cases h0 : (allRanks models records m).length = 0
  · simp [h0] at h
  · simp only [h0, if_neg, not_false_iff, Option.some.injEq] at h
    have hpos : 0 < ((allRanks models records m).length : Rat) := by
      exact_mod_cast Nat.pos_of_ne_zero h0
    have hsum : (allRanks models records m).sum
        ≤ (allRanks models records m).length * models.length := by
      have := List.sum_le_card_nsmul (allRanks models records m) models.length
        (allRanks_le models records m)
      simpa [smul_eq_mul] using this
    have hdiv : ((allRanks models records m).sum : Rat)
        / (allRanks models records m).length ≤ (models.length : Rat) := by
      rw [div_le_iff₀ hpos]
      calc ((allRanks models records m).sum : Rat)
          ≤ ((allRanks models records m).length * models.length : Nat) := by
            exact_mod_cast hsum
        _ = (models.length : Rat) * (allRanks models records m).length := by
            push_cast
            ring
    have hL : (models.length : Rat) ≤ 998 := by exact_mod_cast hlen
    rw [← h]
    linarith

theorem summaryPre_fields {models : List String} {maseR crpsR : List MetricRecord}
    {e : SummaryEntryI} (he : e ∈ summaryPre models maseR crpsR) :
    e.avg_mase = (avgMetric maseR e.model).map round3
    ∧ e.avg_crps = (avgMetric crpsR e.model).map round3
    ∧ e.rank_mase = (avgRank models maseR e.model).map round3
    ∧ e.rank_crps = (avgRank models crpsR e.model).map round3
    ∧ e.combined = combinedScore (avgRank models maseR e.model)
        (avgRank models crpsR e.model) := by
  unfold summaryPre at he
  rw [List.mem_map] at he
  obtain ⟨m, _, rfl⟩ := he
  exact ⟨rfl, rfl, rfl, rfl, rfl⟩

theorem summarySorted_subset {models : List String} {maseR crpsR : List MetricRecord}
    {e : SummaryEntryI} (he : e ∈ summarySorted models maseR crpsR) :
    e ∈ summaryPre models maseR crpsR :=
  (List.mem_insertionSort combLE).mp he

/-- C3: the combined score is the mean of whichever rank means are present
(their average with both, the single one otherwise), is the sentinel `999`
with neither, is strictly below `999` for any model with at least one
present rank mean (given at most 998 models), and in the sorted summary
every entry with a present rank mean comes strictly before every entry
with neither. -/
theorem combined_score_spec :
    (∀ a b : Rat, combinedScore (some a) (some b) = (a + b) / 2)
    ∧ (∀ a : Rat, combinedScore (some a) none = a)
    ∧ (∀ b : Rat, combinedScore none (some b) = b)
    ∧ combinedScore none none = 999
    ∧ (∀ (models : List String) (maseR crpsR : List MetricRecord) (m : String),
        models.length ≤ 998 →
        ((avgRank models maseR m).isSome ∨ (avgRank models crpsR m).isSome) →
        combinedScore (avgRank models maseR m) (avgRank models crpsR m) < 999)
    ∧ (∀ (models : List String) (maseR crpsR : List MetricRecord),
        models.length ≤ 998 →
        ∀ (i j : Fin (summarySorted models maseR crpsR).length),
          (((summarySorted models maseR crpsR).get i).rank_mase ≠ none
            ∨ ((summarySorted models maseR crpsR).get i).rank_crps ≠ none) →
          (((summarySorted models maseR crpsR).get j).rank_mase = none
            ∧ ((summarySorted models maseR crpsR).get j).rank_crps = none) →
          (i : Nat) < (j : Nat)) := by
  have hlt : ∀ (models : List String) (maseR crpsR : List MetricRecord) (m : String),
      models.length ≤ 998 →
      ((avgRank models maseR m).isSome ∨ (avgRank models crpsR m).isSome) →
      combinedScore (avgRank models maseR m) (avgRank models crpsR m) < 999 := by
    intro models maseR crpsR m hlen hsome
    cases hm : avgRank models maseR m with
    | some a =>
      have ha := avgRank_lt_999 models maseR m a hlen hm
      cases hc : avgRank models crpsR m with
      | some b =>
        have hb := avgRank_lt_999 models crpsR m b hlen hc
        simp only [combinedScore]
        norm_num
        linarith
      | none =>
        simp only [combinedScore]
        norm_num
        linarith
    | none =>
      cases hc : avgRank models crpsR m with
      | some b =>
        have hb := avgRank_lt_999 models crpsR m b hlen hc
        simp only [combinedScore]
        norm_num
        linarith
      | none =>
        rw [hm, hc] at hsome
        simp at hsome
  refine ⟨?_, ?_, ?_, ?_, hlt, ?_⟩
  · intro a b
    simp only [combinedScore]
    norm_num
  · intro a
    simp only [combinedScore]
    norm_num
  · intro b
    simp only [combinedScore]
    norm_num
  · simp [combinedScore]
  · intro models maseR crpsR hlen i j hi hj
    have hpw : (summarySorted models maseR crpsR).Pairwise combLE :=
      List.sorted_insertionSort combLE _
    have hfi := summaryPre_fields
      (summarySorted_subset (List.get_mem (summarySorted models maseR crpsR) i.1 i.2))
    have hfj := summaryPre_fields
      (summarySorted_subset (List.get_mem (summarySorted models maseR crpsR) j.1 j.2))
    have hjm : avgRank models maseR ((summarySorted models maseR crpsR).get j).model
        = none := by
      have := hj.1
      rw [hfj.2.2.1] at this
      exact (Option.map_eq_none'.mp this)
    have hjc : avgRank models crpsR ((summarySorted models maseR crpsR).get j).model
        = none := by
      have := hj.2
      rw [hfj.2.2.2.1] at this
      exact (Option.map_eq_none'.mp this)
    have hcombj : ((summarySorted models maseR crpsR).get j).combined = 999 := by
      rw [hfj.2.2.2.2, hjm, hjc]
      simp [combinedScore]
    have hsomei : (avgRank models maseR ((summarySorted models maseR crpsR).get i).model).isSome
        ∨ (avgRank models crpsR ((summarySorted models maseR crpsR).get i).model).isSome := by
      rcases hi with hi | hi
      · left
        rw [hfi.2.2.1] at hi
        rw [Option.isSome_iff_ne_none]
        intro hn
        rw [hn] at hi
        simp at hi
      · right
        rw [hfi.2.2.2.1] at hi
        rw [Option.isSome_iff_ne_none]
        intro hn
        rw [hn] at hi
        simp at hi
    have hcombi : ((summarySorted models maseR crpsR).get i).combined < 999 := by
      rw [hfi.2.2.2.2]
      exact hlt models maseR crpsR _ hlen hsomei
    by_contra hij
    push_neg at hij
    rcases Nat.lt_or_ge (j : Nat) (i : Nat) with hji | hji
    · have := (List.pairwise_iff_get.mp hpw) j i (by exact hji)
      unfold combLE at this
      rw [hcombj] at this
      linarith
    · have : (i : Nat) = (j : Nat) := le_antisymm hji hij
      have hgeq : (summarySorted models maseR crpsR).get i
          = (summarySorted models maseR crpsR).get j := by
        congr 1
        exact Fin.ext this
      rcases hi with hi | hi
      · rw [hgeq] at hi
        exact hi hj.1
      · rw [hgeq] at hi
        exact hi hj.2

/-- Witness for C3 at a concrete input: a single-model, single-record list
where the model has a present MASE rank mean and no CRPS records. -/
theorem combined_score_spec_witness :
    combinedScore
      (avgRank ["A"]
        [{ subdataset := "s", frequency := "H", cutoff := "2026-01-01-00",
           values := [("A", some 1)] }] "A")
      (avgRank ["A"] [] "A") < 999 :=
  combined_score_spec.2.2.2.2.1 ["A"]
    [{ subdataset := "s", frequency := "H", cutoff := "2026-01-01-00",
       values := [("A", some 1)] }] [] "A"
    (by decide)
    (Or.inl (by decide))

theorem medalize_length (i : Nat) (l : List SummaryEntryI) :
    (medalize i l).length = l.length := by
  induction l generalizing i with
  | nil => rfl
  | cons s ss ih => simp [medalize, ih]

theorem medalize_get (i : Nat) (l : List SummaryEntryI) (j : Nat)
    (h : j < (medalize i l).length) (h' : j < l.length) :
    (medalize i l).get ⟨j, h⟩
      = { model := if i + j < 3 then medals.getD (i + j) "" ++ " " ++ (l.get ⟨j, h'⟩).model
            else (l.get ⟨j, h'⟩).model
          avg_mase := (l.get ⟨j, h'⟩).avg_mase
          avg_crps := (l.get ⟨j, h'⟩).avg_crps
          rank_mase := (l.get ⟨j, h'⟩).rank_mase
          rank_crps := (l.get ⟨j, h'⟩).rank_crps } := by
  induction l generalizing i j with
  | nil => exact absurd h' (by simp)
  | cons s ss ih =>
    cases j with
    | zero => simp [medalize]
    | succ j' =>
      have h2 : j' < (medalize (i + 1) ss).length := by
        rw [medalize_length]
        simpa using h'
      have h3 : j' < ss.length := by simpa using h'
      have e : i + (j' + 1) = (i + 1) + j' := by omega
      simp only [medalize, List.get_cons_succ]
      rw [ih (i + 1) j' h2 h3, e]

/-- C4: the summary has one entry per canonical model, is sorted ascending
by the combined score, drops the internal combined field (the output entry
type has none; all display fields pass through unchanged), carries the
rounded (`round3`) averages and rank means of its own model (`none` when
absent), and exactly the first three entries get the three distinct medal
glyphs prepended in sort order. -/
theorem compute_summary_spec (models : List String) (maseR crpsR : List MetricRecord) :
    (compute_summary models maseR crpsR).length = models.length
    ∧ ((summarySorted models maseR crpsR).map SummaryEntryI.model).Perm models
    ∧ List.Pairwise combLE (summarySorted models maseR crpsR)
    ∧ medals.Nodup
    ∧ (∀ (i : Nat) (h : i < (compute_summary models maseR crpsR).length)
        (h' : i < (summarySorted models maseR crpsR).length),
        ((compute_summary models maseR crpsR).get ⟨i, h⟩).model
          = (if i < 3 then medals.getD i "" ++ " " else "")
              ++ ((summarySorted models maseR crpsR).get ⟨i, h'⟩).model
        ∧ ((compute_summary models maseR crpsR).get ⟨i, h⟩).avg_mase
          = ((summarySorted models maseR crpsR).get ⟨i, h'⟩).avg_mase
        ∧ ((compute_summary models maseR crpsR).get ⟨i, h⟩).avg_crps
          = ((summarySorted models maseR crpsR).get ⟨i, h'⟩).avg_crps
        ∧ ((compute_summary models maseR crpsR).get ⟨i, h⟩).rank_mase
          = ((summarySorted models maseR crpsR).get ⟨i, h'⟩).rank_mase
        ∧ ((compute_summary models maseR crpsR).get ⟨i, h⟩).rank_crps
          = ((summarySorted models maseR crpsR).get ⟨i, h'⟩).rank_crps)
    ∧ (∀ e ∈ summarySorted models maseR crpsR,
        e.avg_mase = (avgMetric maseR e.model).map round3
        ∧ e.avg_crps = (avgMetric crpsR e.model).map round3
        ∧ e.rank_mase = (avgRank models maseR e.model).map round3
        ∧ e.rank_crps = (avgRank models crpsR e.model).map round3
        ∧ e.combined = combinedScore (avgRank models maseR e.model)
            (avgRank models crpsR e.model)) := by
  have hplen : (summaryPre models maseR crpsR).length = models.length := by
    simp [summaryPre]
  have hslen : (summarySorted models maseR crpsR).length = models.length := by
    rw [summarySorted, (List.perm_insertionSort combLE _).length_eq, hplen]
  refine ⟨?_, ?_, List.sorted_insertionSort combLE _, by decide, ?_, ?_⟩
  · rw [compute_summary, medalize_length, hslen]
  · have h1 : ((summarySorted models maseR crpsR).map SummaryEntryI.model).Perm
        ((summaryPre models maseR crpsR).map SummaryEntryI.model) :=
      (List.perm_insertionSort combLE _).map SummaryEntryI.model
    have h2 : (summaryPre models maseR crpsR).map SummaryEntryI.model = models := by
      simp [summaryPre, List.map_map, Function.comp_def]
    rw [h2] at h1
    exact h1
  · intro i h h'
    have hh : i < (medalize 0 (summarySorted models maseR crpsR)).length := h
    have hget : (compute_summary models maseR crpsR).get ⟨i, h⟩
        = (medalize 0 (summarySorted models maseR crpsR)).get ⟨i, hh⟩ := rfl
    rw [hget, medalize_get 0 (summarySorted models maseR crpsR) i hh h']
    refine ⟨?_, rfl, rfl, rfl, rfl⟩
    by_cases hi : i < 3
    · simp [hi]
    · simp [hi]
  · intro e he
    exact summaryPre_fields (summarySorted_subset he)

/-- Witness for C4 at a concrete input: the single summary entry of a
one-model run with no records. -/
theorem compute_summary_spec_witness :
    ({ model := "A", avg_mase := none, avg_crps := none, rank_mase := none,
       rank_crps := none, combined := 999 } : SummaryEntryI).avg_mase
      = (avgMetric [] "A").map round3
    ∧ ({ model := "A", avg_mase := none, avg_crps := none, rank_mase := none,
         rank_crps := none, combined := 999 } : SummaryEntryI).avg_crps
      = (avgMetric [] "A").map round3 :=
  ⟨((compute_summary_spec ["A"] [] []).2.2.2.2.2 _ (by decide)).1,
   ((compute_summary_spec ["A"] [] []).2.2.2.2.2 _ (by decide)).2.1⟩

theorem getLast?_max {l : List String} (hs : l.Pairwise strLE) {c : String}
    (hl : l.getLast? = some c) : ∀ x ∈ l, strLE x c := by
  induction l with
  | nil => simp at hl
  | cons a t ih =>
    cases t with
    | nil =>
      intro x hx
      rcases List.mem_singleton.mp hx with rfl
      simp only [List.getLast?_singleton, Option.some.injEq] at hl
      rw [hl]
      exact lexLeb_refl _
    | cons b t' =>
      have hl' : (b :: t').getLast? = some c := by
        simpa [List.getLast?_cons_cons] using hl
      have hhead : ∀ y ∈ b :: t', strLE a y := (List.pairwise_cons.mp hs).1
      have htail := (List.pairwise_cons.mp hs).2
      intro x hx
      rcases List.mem_cons.mp hx with rfl | hx'
      · exact hhead c (List.mem_of_getLast?_eq_some hl')
      · exact ih htail hl' x hx'

theorem filterWithin_eq_filter (t : Int) (rs : List MetricRecord)
    (h : ∀ r ∈ rs, (parseDate r.cutoff).isSome) :
    filterWithin t rs = some (rs.filter (keep t)) := by
  induction rs with
  | nil => rfl
  | cons r rs ih =>
    obtain ⟨d, hd⟩ := Option.isSome_iff_exists.mp (h r (by simp))
    have ih' := ih (fun x hx => h x (by simp [hx]))
    by_cases htd : t ≤ ordOf d
    · simp [filterWithin, hd, ih', List.filter_cons, keep, htd]
    · simp [filterWithin, hd, ih', List.filter_cons, keep, htd]

/-- C5: the time-window filter takes the maximum cutoff string over the
union of both record lists (the last element of the sorted deduplicated
cutoffs is an upper bound attained by some record), parses it as a
calendar date, subtracts 90 days, and retains in each list exactly the
records whose parsed cutoff date is at or after that same threshold; with
no records it is a no-op; the spec's concrete example dates behave as
stated. -/
theorem time_window_filter_spec :
    (∀ mase crps : List MetricRecord, mase = [] → crps = [] →
      filterWindow mase crps = some (mase, crps))
    ∧ (∀ (rs : List MetricRecord) (c : String), latestCutoff rs = some c →
        (∃ r ∈ rs, r.cutoff = c) ∧ ∀ r ∈ rs, strLE r.cutoff c)
    ∧ (∀ (mase crps : List MetricRecord) (c : String) (ld : Nat × Nat × Nat),
        latestCutoff (mase ++ crps) = some c → parseDate c = some ld →
        (∀ r ∈ mase ++ crps, (parseDate r.cutoff).isSome) →
        filterWindow mase crps
          = some (mase.filter (keep (ordOf ld - 90)),
              crps.filter (keep (ordOf ld - 90))))
    ∧ (∀ (t : Int) (r : MetricRecord),
        keep t r = true ↔ ∃ d, parseDate r.cutoff = some d ∧ t ≤ ordOf d)
    ∧ (toOrdinal 2026 2 12 - 90 = toOrdinal 2025 11 14
      ∧ toOrdinal 2025 11 14 ≤ toOrdinal 2026 1 1
      ∧ ¬ toOrdinal 2025 11 14 ≤ toOrdinal 2025 10 1) := by
  refine ⟨?_, ?_, ?_, ?_, by decide⟩
  · intro mase crps h1 h2
    subst h1
    subst h2
    rfl
  · intro rs c hc
    have hsorted : (List.insertionSort strLE (rs.map (fun r => r.cutoff)).dedup).Pairwise
        strLE := List.sorted_insertionSort strLE _
    have hmem : c ∈ List.insertionSort strLE (rs.map (fun r => r.cutoff)).dedup :=
      List.mem_of_getLast?_eq_some hc
    have hmem' : c ∈ rs.map (fun r => r.cutoff) :=
      List.mem_dedup.mp ((List.mem_insertionSort strLE).mp hmem)
    constructor
    · obtain ⟨r, hr, hrc⟩ := List.mem_map.mp hmem'
      exact ⟨r, hr, hrc⟩
    · intro r hr
      have : r.cutoff ∈ List.insertionSort strLE (rs.map (fun r => r.cutoff)).dedup := by
        rw [List.mem_insertionSort, List.mem_dedup]
        exact List.mem_map.mpr ⟨r, hr, rfl⟩
      exact getLast?_max hsorted hc r.cutoff this
  · intro mase crps c ld hc hld hall
    have hm : ∀ r ∈ mase, (parseDate r.cutoff).isSome :=
      fun r hr => hall r (List.mem_append.mpr (Or.inl hr))
    have hcr : ∀ r ∈ crps, (parseDate r.cutoff).isSome :=
      fun r hr => hall r (List.mem_append.mpr (Or.inr hr))
    simp only [filterWindow, hc, hld, filterWithin_eq_filter (ordOf ld - 90) mase hm,
      filterWithin_eq_filter (ordOf ld - 90) crps hcr]
  · intro t r
    cases hd : parseDate r.cutoff with
    | none => simp [keep, hd]
    | some d => simp [keep, hd]

/-- Witness for C5 at a concrete pair of record lists realizing the spec's
example: latest cutoff `2026-02-12-00`; the `2026-01-01-00` record is kept
and the `2025-10-01-00` record is dropped. -/
theorem time_window_filter_spec_witness :
    filterWindow
      [{ subdataset := "s", frequency := "H", cutoff := "2026-01-01-00", values := [] },
       { subdataset := "s", frequency := "H", cutoff := "2025-10-01-00", values := [] }]
      [{ subdataset := "s", frequency := "H", cutoff := "2026-02-12-00", values := [] }]
    = some
      ([{ subdataset := "s", frequency := "H", cutoff := "2026-01-01-00", values := [] },
        { subdataset := "s", frequency := "H", cutoff := "2025-10-01-00", values := [] }].filter
        (keep (ordOf (2026, 2, 12) - 90)),
       [{ subdataset := "s", frequency := "H", cutoff := "2026-02-12-00",
          values := [] }].filter (keep (ordOf (2026, 2, 12) - 90))) :=
  time_window_filter_spec.2.2.1
    [{ subdataset := "s", frequency := "H", cutoff := "2026-01-01-00", values := [] },
     { subdataset := "s", frequency := "H", cutoff := "2025-10-01-00", values := [] }]
    [{ subdataset := "s", frequency := "H", cutoff := "2026-02-12-00", values := [] }]
    "2026-02-12-00" (2026, 2, 12) (by decide) (by decide) (by decide)

theorem sortedUnique_mem (l : List String) (x : String) :
    x ∈ sortedUnique l ↔ x ∈ l := by
  rw [sortedUnique, List.mem_insertionSort, List.mem_dedup]

theorem sortedUnique_sorted (l : List String) : (sortedUnique l).Pairwise strLE :=
  List.sorted_insertionSort strLE l.dedup

theorem sortedUnique_nodup (l : List String) : (sortedUnique l).Nodup :=
  (List.perm_insertionSort strLE l.dedup).nodup_iff.mpr l.nodup_dedup

/-- C6: in the assembled Dataset, each of the `cutoffs`, `subdatasets` and
`frequencies` fields is the sorted duplicate-free set of the corresponding
field over exactly the union of the two (already time-window-filtered)
record lists stored in the Dataset itself. -/
theorem dataset_fields_spec (models : List String) (maseR crpsR : List MetricRecord)
    (ds : Dataset) (h : mainPipeline models maseR crpsR = some ds) :
    ((∀ x ∈ ds.cutoffs, ∃ r ∈ ds.mase ++ ds.crps, r.cutoff = x)
      ∧ (∀ r ∈ ds.mase ++ ds.crps, r.cutoff ∈ ds.cutoffs)
      ∧ ds.cutoffs.Pairwise strLE ∧ ds.cutoffs.Nodup)
    ∧ ((∀ x ∈ ds.subdatasets, ∃ r ∈ ds.mase ++ ds.crps, r.subdataset = x)
      ∧ (∀ r ∈ ds.mase ++ ds.crps, r.subdataset ∈ ds.subdatasets)
      ∧ ds.subdatasets.Pairwise strLE ∧ ds.subdatasets.Nodup)
    ∧ ((∀ x ∈ ds.frequencies, ∃ r ∈ ds.mase ++ ds.crps, r.frequency = x)
      ∧ (∀ r ∈ ds.mase ++ ds.crps, r.frequency ∈ ds.frequencies)
      ∧ ds.frequencies.Pairwise strLE ∧ ds.frequencies.Nodup) := by
  rw [mainPipeline] at h
  cases hw : filterWindow maseR crpsR with
  | none =>
    rw [hw] at h
    simp at h
  | some p =>
    rw [hw] at h
    simp only [Option.map_some', Option.some.injEq] at h
    subst h
    have hm : (buildDataset models p.1 p.2).mase = p.1 := rfl
    have hc : (buildDataset models p.1 p.2).crps = p.2 := rfl
    refine ⟨⟨?_, ?_, sortedUnique_sorted _, sortedUnique_nodup _⟩,
      ⟨?_, ?_, sortedUnique_sorted _, sortedUnique_nodup _⟩,
      ⟨?_, ?_, sortedUnique_sorted _, sortedUnique_nodup _⟩⟩
    · intro x hx
      have := (sortedUnique_mem _ x).mp hx
      obtain ⟨r, hr, hrx⟩ := List.mem_map.mp this
      exact ⟨r, hr, hrx⟩
    · intro r hr
      rw [hm, hc] at hr
      exact (sortedUnique_mem _ _).mpr (List.mem_map.mpr ⟨r, hr, rfl⟩)
    · intro x hx
      have := (sortedUnique_mem _ x).mp hx
      obtain ⟨r, hr, hrx⟩ := List.mem_map.mp this
      exact ⟨r, hr, hrx⟩
    · intro r hr
      rw [hm, hc] at hr
      exact (sortedUnique_mem _ _).mpr (List.mem_map.mpr ⟨r, hr, rfl⟩)
    · intro x hx
      have := (sortedUnique_mem _ x).mp hx
      obtain ⟨r, hr, hrx⟩ := List.mem_map.mp this
      exact ⟨r, hr, hrx⟩
    · intro r hr
      rw [hm, hc] at hr
      exact (sortedUnique_mem _ _).mpr (List.mem_map.mpr ⟨r, hr, rfl⟩)

/-- Witness for C6 at a concrete one-record pipeline run. -/
theorem dataset_fields_spec_witness :
    ∃ r ∈ (buildDataset ["A"]
        [{ subdataset := "s1", frequency := "H", cutoff := "2026-01-01-00",
           values := [("A", some 1)] }] []).mase
      ++ (buildDataset ["A"]
        [{ subdataset := "s1", frequency := "H", cutoff := "2026-01-01-00",
           values := [("A", some 1)] }] []).crps,
      r.cutoff = "2026-01-01-00" :=
  (dataset_fields_spec ["A"]
    [{ subdataset := "s1", frequency := "H", cutoff := "2026-01-01-00",
       values := [("A", some 1)] }] []
    (buildDataset ["A"]
      [{ subdataset := "s1", frequency := "H", cutoff := "2026-01-01-00",
         values := [("A", some 1)] }] [])
    (by
      have hfw : filterWindow
          [{ subdataset := "s1", frequency := "H", cutoff := "2026-01-01-00",
             values := [("A", some 1)] }] []
          = some
            ([{ subdataset := "s1", frequency := "H", cutoff := "2026-01-01-00",
                values := [("A", some 1)] }], []) := by decide
      simp [mainPipeline, hfw])).1.1 "2026-01-01-00" (by decide)

/-- C10: whenever the union of the record lists is non-empty before
filtering (and all cutoffs parse), the time-window filter keeps every
record carrying the maximum cutoff string — its date is the threshold
plus 90 days — so the filtered union and the Dataset's cutoffs set are
non-empty and the latter contains the maximum pre-filter cutoff. -/
theorem filter_retains_latest (models : List String) (maseR crpsR : List MetricRecord)
    (ds : Dataset)
    (hne : maseR ++ crpsR ≠ [])
    (hparse : ∀ r ∈ maseR ++ crpsR, (parseDate r.cutoff).isSome)
    (hmain : mainPipeline models maseR crpsR = some ds) :
    ∃ c, latestCutoff (maseR ++ crpsR) = some c
      ∧ c ∈ ds.cutoffs
      ∧ (∀ r ∈ maseR ++ crpsR, r.cutoff = c → r ∈ ds.mase ++ ds.crps)
      ∧ ds.mase ++ ds.crps ≠ []
      ∧ ds.cutoffs ≠ [] := by
  cases hc : latestCutoff (maseR ++ crpsR) with
  | none =>
    exfalso
    rw [latestCutoff, List.getLast?_eq_none_iff] at hc
    have hlen := congrArg List.length hc
    rw [(List.perm_insertionSort strLE _).length_eq] at hlen
    have hded : ((maseR ++ crpsR).map (fun r => r.cutoff)).dedup = [] :=
      List.length_eq_zero.mp hlen
    rw [List.dedup_eq_nil] at hded
    have : maseR ++ crpsR = [] := by
      simpa using congrArg List.length hded
    exact hne this
  | some c =>
    have hmem : c ∈ (maseR ++ crpsR).map (fun r => r.cutoff) := by
      rw [latestCutoff] at hc
      exact List.mem_dedup.mp
        ((List.mem_insertionSort strLE).mp (List.mem_of_getLast?_eq_some hc))
    obtain ⟨r0, hr0, hr0c⟩ := List.mem_map.mp hmem
    obtain ⟨ld, hld⟩ := Option.isSome_iff_exists.mp (hparse r0 hr0)
    have hldc : parseDate c = some ld := by
      rw [← hr0c]
      exact hld
    have hm : ∀ r ∈ maseR, (parseDate r.cutoff).isSome :=
      fun r hr => hparse r (List.mem_append.mpr (Or.inl hr))
    have hcr : ∀ r ∈ crpsR, (parseDate r.cutoff).isSome :=
      fun r hr => hparse r (List.mem_append.mpr (Or.inr hr))
    have hfw : filterWindow maseR crpsR
        = some (maseR.filter (keep (ordOf ld - 90)), crpsR.filter (keep (ordOf ld - 90))) := by
      simp only [filterWindow, hc, hldc, filterWithin_eq_filter (ordOf ld - 90) maseR hm,
        filterWithin_eq_filter (ordOf ld - 90) crpsR hcr]
    rw [mainPipeline, hfw] at hmain
    simp only [Option.map_some', Option.some.injEq] at hmain
    subst hmain
    have hkeep : ∀ r : MetricRecord, r.cutoff = c → keep (ordOf ld - 90) r = true := by
      intro r hrc
      unfold keep
      rw [hrc, hldc]
      simp only [decide_eq_true_eq]
      omega
    have hrmem : ∀ r ∈ maseR ++ crpsR, r.cutoff = c →
        r ∈ maseR.filter (keep (ordOf ld - 90)) ++ crpsR.filter (keep (ordOf ld - 90)) := by
      intro r hr hrc
      rcases List.mem_append.mp hr with h | h
      · exact List.mem_append.mpr (Or.inl (List.mem_filter.mpr ⟨h, hkeep r hrc⟩))
      · exact List.mem_append.mpr (Or.inr (List.mem_filter.mpr ⟨h, hkeep r hrc⟩))
    have hr0mem := hrmem r0 hr0 hr0c
    have hcut : c ∈ sortedUnique
        ((maseR.filter (keep (ordOf ld - 90))
          ++ crpsR.filter (keep (ordOf ld - 90))).map (fun r => r.cutoff)) := by
      rw [sortedUnique_mem]
      exact List.mem_map.mpr ⟨r0, hr0mem, hr0c⟩
    exact ⟨c, rfl, hcut, hrmem, List.ne_nil_of_mem hr0mem, List.ne_nil_of_mem hcut⟩

/-- Witness for C10 at a concrete one-record run: the filtered union is
non-empty. -/
theorem filter_retains_latest_witness :
    (buildDataset ["A"]
      [{ subdataset := "s1", frequency := "H", cutoff := "2026-01-01-00",
         values := [("A", some 1)] }] []).mase
    ++ (buildDataset ["A"]
      [{ subdataset := "s1", frequency := "H", cutoff := "2026-01-01-00",
         values := [("A", some 1)] }] []).crps ≠ [] := by
  obtain ⟨c, _, _, _, h4, _⟩ := filter_retains_latest ["A"]
    [{ subdataset := "s1", frequency := "H", cutoff := "2026-01-01-00",
       values := [("A", some 1)] }] []
    (buildDataset ["A"]
      [{ subdataset := "s1", frequency := "H", cutoff := "2026-01-01-00",
         values := [("A", some 1)] }] [])
    (by decide) (by decide)
    (by
      have hfw : filterWindow
          [{ subdataset := "s1", frequency := "H", cutoff := "2026-01-01-00",
             values := [("A", some 1)] }] []
          = some
            ([{ subdataset := "s1", frequency := "H", cutoff := "2026-01-01-00",
                values := [("A", some 1)] }], []) := by decide
      simp [mainPipeline, hfw])
  exact h4

theorem isPrefixOf_append (l t : List Char) : l.isPrefixOf (l ++ t) = true := by
  induction l with
  | nil => simp [List.isPrefixOf]
  | cons c cs ih => simp [List.isPrefixOf, ih]

theorem hasSubstr_append (pat pre suf : List Char) :
    hasSubstr pat (pre ++ (pat ++ suf)) = true := by
  induction pre with
  | nil =>
    cases hp : pat with
    | nil =>
      cases suf with
      | nil => rfl
      | cons c r => simp [hasSubstr, List.isPrefixOf]
    | cons c r =>
      rw [← hp]
      cases hq : pat ++ suf with
      | nil =>
        rw [hp] at hq
        simp at hq
      | cons d q =>
        simp only [List.nil_append, hasSubstr]
        rw [← hq, isPrefixOf_append]
        simp
  | cons c p ih => simp [hasSubstr, ih]

theorem replacePH_cons (repl : List Char) (c : Char) (rest : List Char) :
    replacePH repl (c :: rest)
      = if PLACEHOLDER.isPrefixOf (c :: rest) then
          repl ++ replacePH repl ((c :: rest).drop PLACEHOLDER.length)
        else c :: replacePH repl rest := by
  rw [replacePH]

theorem replacePH_of_not_contains (repl : List Char) (s : List Char)
    (h : hasSubstr PLACEHOLDER s = false) : replacePH repl s = s := by
  induction s with
  | nil => rw [replacePH]
  | cons c rest ih =>
    rw [hasSubstr, Bool.or_eq_false_iff] at h
    rw [replacePH_cons, if_neg (by simp [h.1]), ih h.2]

theorem replacePH_at_start (repl suf : List Char) :
    replacePH repl (PLACEHOLDER ++ suf) = repl ++ replacePH repl suf := by
  have h1 : PLACEHOLDER ++ suf
      = '/' :: ("* __DATA_PLACEHOLDER__ */".data ++ suf) := rfl
  rw [h1, replacePH_cons, if_pos (by rw [← h1]; exact isPrefixOf_append PLACEHOLDER suf)]
  have h2 : ('/' :: ("* __DATA_PLACEHOLDER__ */".data ++ suf)).drop PLACEHOLDER.length
      = suf := by
    rw [← h1]
    exact List.drop_left PLACEHOLDER suf
  rw [h2]

theorem replacePH_single (repl pre suf : List Char)
    (hpre : ∀ i, i < pre.length →
      PLACEHOLDER.isPrefixOf ((pre ++ (PLACEHOLDER ++ suf)).drop i) = false) :
    replacePH repl (pre ++ (PLACEHOLDER ++ suf))
      = pre ++ (repl ++ replacePH repl suf) := by
  induction pre with
  | nil =>
    simp only [List.nil_append]
    exact replacePH_at_start repl suf
  | cons c p ih =>
    have h0 := hpre 0 (by simp)
    simp only [List.drop_zero] at h0
    have hstep : ∀ i, i < p.length →
        PLACEHOLDER.isPrefixOf ((p ++ (PLACEHOLDER ++ suf)).drop i) = false := by
      intro i hi
      have := hpre (i + 1) (by simp; omega)
      simpa using this
    simp only [List.cons_append] at h0 ⊢
    rw [replacePH_cons, if_neg (by simp [h0]), ih hstep]

/-- C7: the renderer fails with `PlaceholderMissing` exactly when the
placeholder token is absent from the template; when the template contains
exactly one occurrence (no occurrence starts inside the prefix and none
lies in the suffix), the output is the template with that occurrence
literally replaced by the `const DATA = ...;` line and everything else
unchanged. -/
theorem render_spec (dataJson template : List Char) :
    (render dataJson template = Except.error "PlaceholderMissing"
      ↔ hasSubstr PLACEHOLDER template = false)
    ∧ (∀ pre suf, template = pre ++ (PLACEHOLDER ++ suf) →
        (∀ i, i < pre.length →
          PLACEHOLDER.isPrefixOf (template.drop i) = false) →
        hasSubstr PLACEHOLDER suf = false →
        render dataJson template = Except.ok (pre ++ (dataLine dataJson ++ suf))) := by
  constructor
  · unfold render
    by_cases h : hasSubstr PLACEHOLDER template
    · simp [h]
    · simp [h]
  · intro pre suf hts hpre hsuf
    subst hts
    have hc : hasSubstr PLACEHOLDER (pre ++ (PLACEHOLDER ++ suf)) = true :=
      hasSubstr_append PLACEHOLDER pre suf
    unfold render
    rw [if_pos (by simp [hc]), replacePH_single (dataLine dataJson) pre suf hpre,
      replacePH_of_not_contains (dataLine dataJson) suf hsuf]

/-- Witness for C7 at a concrete template with a unique placeholder
occurrence. -/
theorem render_spec_witness :
    render "1".data ("A ".data ++ (PLACEHOLDER ++ " B".data))
      = Except.ok ("A ".data ++ (dataLine "1".data ++ " B".data)) :=
  (render_spec "1".data ("A ".data ++ (PLACEHOLDER ++ " B".data))).2
    "A ".data " B".data rfl (by decide) (by decide)

theorem get?_lt {α : Type} (l : List α) (n : Nat) (h : n < l.length) :
    ∃ a, l.get? n = some a := by
  cases hr : l.get? n with
  | none => exact absurd (List.get?_eq_none.mp hr) (by omega)
  | some a => exact ⟨a, rfl⟩

theorem values_parse {α : Type} (row : List α) :
    ∀ (mc : List String) (i : Nat),
    (∀ j, j < mc.length → 3 + i + j < row.length) →
    ∃ vs : List (String × α),
      mapOpt (fun p => (row.get? (3 + p.1)).map (fun v => (p.2, v))) (withIdx i mc) = some vs
      ∧ vs.length = mc.length
      ∧ ∀ j, j < mc.length →
          vs.get? j = (mc.get? j).bind (fun m => (row.get? (3 + i + j)).map (fun v => (m, v)))
  | [], _, _ => ⟨[], rfl, rfl, by intro j hj; simp at hj⟩
  | m :: ms, i, h => by
    have h0 : 3 + i < row.length := by
      have := h 0 (by simp)
      omega
    obtain ⟨v, hv⟩ := get?_lt row (3 + i) h0
    obtain ⟨vs, hvs, hlen, hget⟩ := values_parse row ms (i + 1) (fun j hj => by
      have := h (j + 1) (by simpa using Nat.succ_lt_succ hj)
      omega)
    have hv' := hv
    have hvs' := hvs
    simp only [List.get?_eq_getElem?] at hv' hvs'
    refine ⟨(m, v) :: vs, ?_, by simp [hlen], ?_⟩
    · rw [withIdx, mapOpt, hv]
      simp [hvs']
    · intro j hj
      cases j with
      | zero => simp [hv']
      | succ j' =>
        have hj' : j' < ms.length := by simpa using hj
        have hg := hget j' hj'
        have e : 3 + (i + 1) + j' = 3 + i + (j' + 1) := by omega
        rw [e] at hg
        simpa using hg

theorem parseRow_ok {α : Type} (mc : List String) (row : List α)
    (hlen : ∀ j, j < mc.length → 3 + j < row.length) (h3 : 3 ≤ row.length) :
    ∃ rcd : RawRecord α, parseRow mc row = some rcd
      ∧ row.get? 0 = some rcd.subdataset
      ∧ row.get? 1 = some rcd.frequency
      ∧ row.get? 2 = some rcd.cutoff
      ∧ rcd.values.length = mc.length
      ∧ ∀ i, i < mc.length →
          rcd.values.get? i
            = (mc.get? i).bind (fun m => (row.get? (3 + i)).map (fun v => (m, v))) := by
  obtain ⟨s0, h0⟩ := get?_lt row 0 (by omega)
  obtain ⟨s1, h1⟩ := get?_lt row 1 (by omega)
  obtain ⟨s2, h2⟩ := get?_lt row 2 (by omega)
  obtain ⟨vs, hvs, hvlen, hvget⟩ := values_parse row mc 0 (fun j hj => by
    have := hlen j hj
    omega)
  refine ⟨{ subdataset := s0, frequency := s1, cutoff := s2, values := vs },
    ?_, h0, h1, h2, hvlen, ?_⟩
  · have h0' := h0
    have h1' := h1
    have h2' := h2
    have hvs' := hvs
    simp only [List.get?_eq_getElem?] at h0' h1' h2' hvs'
    simp [parseRow, h0', h1', h2', hvs']
  · intro i hi
    have := hvget i hi
    have e : 3 + 0 + i = 3 + i := by omega
    rw [e] at this
    exact this

theorem mapOpt_forall_some {α β : Type} {f : α → Option β} (P : α → β → Prop) :
    ∀ l : List α, (∀ a ∈ l, ∃ b, f a = some b ∧ P a b) →
    ∃ bs, mapOpt f l = some bs ∧ bs.length = l.length
      ∧ ∀ (j : Nat) (a : α), l.get? j = some a → ∃ b, bs.get? j = some b ∧ P a b
  | [], _ => ⟨[], rfl, rfl, by intro j a h; simp at h⟩
  | a :: l, h => by
    obtain ⟨b, hb, hPb⟩ := h a (by simp)
    obtain ⟨bs, hbs, hlen, hget⟩ := mapOpt_forall_some P l (fun x hx => h x (by simp [hx]))
    refine ⟨b :: bs, by simp [mapOpt, hb, hbs], by simp [hlen], ?_⟩
    intro j a' hj
    cases j with
    | zero =>
      simp only [List.get?_cons_zero, Option.some.injEq] at hj
      subst hj
      exact ⟨b, rfl, hPb⟩
    | succ j' =>
      simp only [List.get?_cons_succ] at hj ⊢
      exact hget j' a' hj

theorem parse_rows_ok {α : Type} (headers : List String) (raw_rows : List (List α))
    (h3 : 3 ≤ headers.length)
    (hlen : ∀ row ∈ raw_rows, headers.length ≤ row.length) :
    ∃ recs, parse_rows headers raw_rows = some (recs, headers.drop 3)
      ∧ recs.length = raw_rows.length
      ∧ ∀ (j : Nat) (row : List α), raw_rows.get? j = some row →
          ∃ rcd : RawRecord α, recs.get? j = some rcd
            ∧ row.get? 0 = some rcd.subdataset
            ∧ row.get? 1 = some rcd.frequency
            ∧ row.get? 2 = some rcd.cutoff
            ∧ rcd.values.length = (headers.drop 3).length
            ∧ ∀ i, i < (headers.drop 3).length →
                rcd.values.get? i = ((headers.drop 3).get? i).bind
                  (fun m => (row.get? (3 + i)).map (fun v => (m, v))) := by
  have hmc : (headers.drop 3).length = headers.length - 3 := by
    simp
  have hrow : ∀ row ∈ raw_rows, ∃ rcd, parseRow (headers.drop 3) row = some rcd
      ∧ (row.get? 0 = some rcd.subdataset
        ∧ row.get? 1 = some rcd.frequency
        ∧ row.get? 2 = some rcd.cutoff
        ∧ rcd.values.length = (headers.drop 3).length
        ∧ ∀ i, i < (headers.drop 3).length →
            rcd.values.get? i = ((headers.drop 3).get? i).bind
              (fun m => (row.get? (3 + i)).map (fun v => (m, v)))) := by
    intro row hr
    have hrl := hlen row hr
    obtain ⟨rcd, hp, p0, p1, p2, pl, pv⟩ := parseRow_ok (headers.drop 3) row
      (fun j hj => by omega) (by omega)
    exact ⟨rcd, hp, p0, p1, p2, pl, pv⟩
  obtain ⟨recs, hrecs, hrlen, hrget⟩ := mapOpt_forall_some _ raw_rows hrow
  refine ⟨recs, ?_, hrlen, ?_⟩
  · simp [parse_rows, hrecs]
  · intro j row hj
    obtain ⟨rcd, hr, hp⟩ := hrget j row hj
    exact ⟨rcd, hr, hp⟩

/-- C8: under the in-bounds precondition, normalization yields one record
per data row in row order; the derived model-column list is exactly the
header slice from index 3; each record's first three cells become the
`subdataset`/`frequency`/`cutoff` fields; and the `values` mapping pairs
the `i`-th header name from index 3 with cell `3 + i` verbatim (absent
cells are carried as absent values, never converted). -/
theorem parse_rows_normalization {α : Type} (headers : List String)
    (raw_rows : List (List α)) (h3 : 3 ≤ headers.length)
    (hlen : ∀ row ∈ raw_rows, headers.length ≤ row.length) :
    ∃ recs, parse_rows headers raw_rows = some (recs, headers.drop 3)
      ∧ recs.length = raw_rows.length
      ∧ ∀ (j : Nat) (row : List α), raw_rows.get? j = some row →
          ∃ rcd : RawRecord α, recs.get? j = some rcd
            ∧ row.get? 0 = some rcd.subdataset
            ∧ row.get? 1 = some rcd.frequency
            ∧ row.get? 2 = some rcd.cutoff
            ∧ rcd.values.length = (headers.drop 3).length
            ∧ ∀ i, i < (headers.drop 3).length →
                rcd.values.get? i = ((headers.drop 3).get? i).bind
                  (fun m => (row.get? (3 + i)).map (fun v => (m, v))) :=
  parse_rows_ok headers raw_rows h3 hlen

/-- Witness for C8 at a concrete table whose single row has an absent
model cell. -/
theorem parse_rows_normalization_witness :
    parse_rows ["subdataset", "frequency", "cutoff", "A"]
      ([[some 0, some 0, some 0, none]] : List (List (Option Rat))) ≠ none := by
  obtain ⟨recs, h, _⟩ := parse_rows_normalization (α := Option Rat)
    ["subdataset", "frequency", "cutoff", "A"] [[some 0, some 0, some 0, none]]
    (by decide) (by decide)
  simp [h]

/-- C9: normalization succeeds whenever the table has at least 3 headers
and every row has at least as many cells as there are headers; the
precondition is necessary: on a row shorter than the header list the
embedded cell lookup has no value and `parse_rows` fails. -/
theorem parse_rows_totality :
    (∀ (α : Type) (headers : List String) (raw_rows : List (List α)),
      3 ≤ headers.length → (∀ row ∈ raw_rows, headers.length ≤ row.length) →
      (parse_rows headers raw_rows).isSome)
    ∧ parse_rows ["subdataset", "frequency", "cutoff", "A"]
        ([[some 1, some 2]] : List (List (Option Rat))) = none := by
  constructor
  · intro α headers raw_rows h3 hlen
    obtain ⟨recs, h, _⟩ := parse_rows_ok headers raw_rows h3 hlen
    simp [h]
  · rfl

/-- Witness for C9: a well-formed 3-header, 3-cell-row table parses. -/
theorem parse_rows_totality_witness :
    (parse_rows ["s", "f", "c"]
      ([[some 1, some 2, some 3]] : List (List (Option Rat)))).isSome :=
  parse_rows_totality.1 (Option Rat) ["s", "f", "c"] [[some 1, some 2, some 3]]
    (by decide) (by decide)

end Leaderboard
